import Mathlib

/-!
Verification of the request/response execution core of the `xprpy` client
(`pyntelope/net.py`): the `Net` connection target, the request executor
`Net._request`, the bounded pagination loop of `Net.get_table_rows`, and the
scoped connection lifecycle (`__enter__`/`__exit__`).

The Python code is shallowly embedded: JSON values are an inductive type,
Python dicts are ordered association lists, the HTTP transport (httpx) is an
oracle `Nat → TransportResult` giving the transport-level result of the n-th
`post` call, and exceptions become an error type threaded through `Except`.
-/

/-- JSON values, the bodies of requests and responses. -/
inductive JsonVal where
  | null
  | bool (b : Bool)
  | num (n : Int)
  | str (s : String)
  | arr (xs : List JsonVal)
  | obj (fields : List (String × JsonVal))

/-- Association-list lookup, first match wins; embeds Python dict indexing
(dicts built by the embedded code have unique keys). -/
def alookup {α : Type} : List (String × α) → String → Option α
  | [], _ => none
  | (k, v) :: rest, key => if k = key then some v else alookup rest key

/-- Python dict assignment `d[k] = v`: replace the (first) binding of `k` in
place, or append a new binding at the end. -/
def dictSet {α : Type} : List (String × α) → String → α → List (String × α)
  | [], k, v => [(k, v)]
  | (k', v') :: rest, k, v =>
      if k' = k then (k, v) :: rest else (k', v') :: dictSet rest k v

/-- Python `base.update(upd)`: assign every binding of `upd` into `base`. -/
def dictUpdate {α : Type} (base upd : List (String × α)) : List (String × α) :=
  upd.foldl (fun acc kv => dictSet acc kv.1 kv.2) base

/-- Python key lookup `data[k]` / membership `k in data` on a JSON response
body. The embedded responses are JSON objects; on a non-object body this
returns `none` (Python `in` on a non-dict body behaves differently for
strings, a case no embedded call path reaches). -/
def dictLookup : JsonVal → String → Option JsonVal
  | JsonVal.obj fields, key => alookup fields key
  | _, _ => none

/-- Python truthiness `bool(v)` of a JSON value. -/
def truthy : JsonVal → Bool
  | JsonVal.null => false
  | JsonVal.bool b => b
  | JsonVal.num n => n != 0
  | JsonVal.str s => s != ""
  | JsonVal.arr xs => !xs.isEmpty
  | JsonVal.obj fields => !fields.isEmpty

/-- Python `v is None` test on an embedded optional value. -/
def JsonVal.isNull : JsonVal → Bool
  | JsonVal.null => true
  | _ => false

/-- Transport-level exceptions caught by `Net._request` (httpx
`TimeoutException`, `NetworkError`, `WriteError`). -/
inductive TransportExc where
  | timeout
  | networkError
  | writeError

/-- What the wire does on one `post` call: either a caught transport
exception, or an HTTP response with a status code and a JSON body. -/
inductive TransportResult where
  | exc (e : TransportExc)
  | resp (status : Nat) (body : JsonVal)

/-- Result of invoking `client.post`: the transport outcome, or the
use-after-close failure httpx raises when the client was closed. -/
inductive PostOutcome where
  | closedClient
  | transportExc (e : TransportExc)
  | resp (status : Nat) (body : JsonVal)

/-- The failure kinds of the embedded core. `connectionError` is
`exc.ConnectionError`; `configurationError` is the pydantic validation
failure at construction; `useAfterClose` is the RuntimeError httpx raises on
a closed client; `tooManyRequests` is the `ValueError` of the pagination
cap; `keyError` and `typeError` are the untyped Python exceptions a direct
`data[k]` lookup or a bad `rows` value can raise. -/
inductive NetError where
  | configurationError
  | connectionError (response : Option (Nat × JsonVal)) (url : String)
      (payload : List (String × JsonVal)) (cause : Option TransportExc)
  | useAfterClose
  | tooManyRequests (msg : String)
  | keyError (key : String)
  | typeError

/-- A transport handle (httpx `Client`), reduced to its open/closed state. -/
structure Client where
  isOpen : Bool

/-- The `Net` connection target: host, custom headers, basic-auth credential,
and the optional held transport handle. -/
structure Net where
  host : String
  headers : List (String × String)
  auth : Option (String × String)
  client : Option Client

/-- Modelled from the spec: the pydantic `AnyHttpUrl` host validation used by
`Net.__init__` (pydantic is an external collaborator, not in src): the host
must be an absolute HTTP or HTTPS URL, i.e. an http/https scheme followed by
a nonempty remainder. -/
def isHttpUrl (s : String) : Bool :=
  (("http://".toList).isPrefixOf s.toList && decide (7 < s.toList.length)) ||
    (("https://".toList).isPrefixOf s.toList && decide (8 < s.toList.length))

/-- Embeds `Net.__init__` (net.py lines 43-55): validate the host, then store
host, headers, auth and the optional caller-supplied client. A failed
validation aborts construction. -/
def Net.init (host : String) (headers : List (String × String))
    (auth : Option (String × String)) (client : Option Client) :
    Except NetError Net :=
  if isHttpUrl host then
    Except.ok { host := host, headers := headers, auth := auth, client := client }
  else
    Except.error NetError.configurationError

/-- Modelled from the spec: the product/version user-agent token
(`xprpy/<version>`); the concrete version string lives in a package metadata
file outside the embedded core and no claim depends on its value. -/
def versionString : String := "0.0.0"

/-- The fixed default headers composed by `Net._request`. -/
def defaultHeaders : List (String × String) :=
  [(("user-agent"), "xprpy/" ++ versionString),
   (("content-type"), ("application/json"))]

/-- Modelled from the spec: the scheme-plus-authority part of the host URL,
used by standard URL join when the endpoint path starts with "/". -/
def hostRoot (host : String) : String :=
  match host.splitOn ("://") with
  | [scheme, rest] => scheme ++ "://" ++ (rest.splitOn ("/")).headD rest
  | _ => host

/-- Modelled from the spec: stdlib `urllib.parse.urljoin` restricted to the
cases the core uses — an endpoint path beginning with "/" replaces the
host's path component entirely. -/
def urljoin (host ep : String) : String :=
  if ep.startsWith ("/") then hostRoot host ++ ep else host ++ ep

/-- The outbound request handed to the transport's `post` operation. -/
structure Post where
  url : String
  payload : List (String × JsonVal)
  headers : List (String × String)
  auth : Option (String × String)

/-- One `client.post(url, json, headers, auth)` call against the wire
oracle: a closed client fails with the use-after-close condition before
anything reaches the wire; an open client surfaces the oracle's result for
the n-th request. -/
def Client.post (c : Client) (server : Nat → TransportResult) (n : Nat) :
    PostOutcome :=
  if c.isOpen then
    match server n with
    | TransportResult.exc e => PostOutcome.transportExc e
    | TransportResult.resp s body => PostOutcome.resp s body
  else PostOutcome.closedClient

/-- The request `Net._request` composes before posting: joined URL, the
payload as given, default headers overlaid with the custom ones, and the
credential. -/
def Net.composePost (net : Net) (ep : String)
    (pl : List (String × JsonVal)) : Post :=
  { url := urljoin net.host ep
    payload := pl
    headers := dictUpdate defaultHeaders net.headers
    auth := net.auth }

/-- Outcome classification of `Net._request` (net.py lines 98-116): a caught
transport exception becomes `ConnectionError` carrying it as cause; a
response with status over 299 and different from 500 becomes
`ConnectionError` carrying the raw response; otherwise the parsed JSON body
is returned. A closed-client failure propagates uncaught. -/
def requestClassify (url : String) (pl : List (String × JsonVal)) :
    PostOutcome → Except NetError JsonVal
  | PostOutcome.closedClient => Except.error NetError.useAfterClose
  | PostOutcome.transportExc e =>
      Except.error (NetError.connectionError none url pl (some e))
  | PostOutcome.resp s body =>
      if 299 < s ∧ s ≠ 500 then
        Except.error (NetError.connectionError (some (s, body)) url pl none)
      else Except.ok body

/-- Result of one `Net._request` call: its outcome, the request that was
handed to `post`, and whether a fresh ephemeral client was constructed for
this call. -/
structure RequestResult where
  outcome : Except NetError JsonVal
  post : Post
  createdEphemeral : Bool

/-- Embeds `Net._request` (net.py lines 80-116): join the URL, compose
headers, use the held client or construct a fresh open one, post, and
classify the outcome. The fresh ephemeral client is not closed afterwards —
the source has no close call on it. -/
def Net._request (net : Net) (server : Nat → TransportResult) (n : Nat)
    (ep : String) (pl : List (String × JsonVal)) : RequestResult :=
  let post := net.composePost ep pl
  match net.client with
  | some c =>
      { outcome := requestClassify post.url pl (c.post server n)
        post := post
        createdEphemeral := false }
  | none =>
      { outcome := requestClassify post.url pl
          (Client.post { isOpen := true } server n)
        post := post
        createdEphemeral := true }

/-- True when the held client is open, or when no client is held (so a fresh
open one is constructed per request). Used as the side condition for request
outcome lemmas. -/
def Net.clientReady (net : Net) : Bool :=
  match net.client with
  | none => true
  | some c => c.isOpen

/-- Embeds `Net.__enter__` (net.py lines 333-336): create and store a client
when none is held. -/
def Net.enter (net : Net) : Net :=
  match net.client with
  | none => { net with client := some { isOpen := true } }
  | some _ => net

/-- The effect of httpx `Client.__exit__`: the client is closed. -/
def Client.close (c : Client) : Client := { c with isOpen := false }

/-- Embeds `Net.__exit__` (net.py lines 338-344): unconditionally call
`self.client.__exit__`, closing the held client whatever its provenance.
(The source hits an attribute error when no client is held; that path is
unreachable under context-manager use, where `__enter__` ran first.) -/
def Net.exitScope (net : Net) : Net :=
  { net with client := net.client.map Client.close }

/-- The endpoint path of the paginated table read. -/
def tableEndpoint : String := "/v1/chain/get_table_rows"

/-- The message of the `ValueError` raised when the pagination cap is hit. -/
def tooManyMsg : String := "Too many requests (>1000) for table"

/-- Result of `Net.get_table_rows`: the accumulated row list, the raw
response returned unchanged when it lacks a `rows` key, or a propagated
error. -/
inductive TableRowsOutcome where
  | rows (xs : List JsonVal)
  | raw (data : JsonVal)
  | err (e : NetError)

/-- Python truthiness of `data.get("more")` (absent key counts as `None`,
hence falsy). -/
def moreTruthy (data : JsonVal) : Bool :=
  truthy ((dictLookup data ("more")).getD JsonVal.null)

/-- Embeds the `for _ in range(1000): ... else: raise ValueError` pagination
loop of `Net.get_table_rows` (net.py lines 293-309), with the remaining
iteration budget as fuel. Each iteration issues one `_request` (recorded in
the returned trace); a response without a `rows` key is returned raw;
otherwise its rows are appended, the loop stops unless `full` is set and
`more` is truthy, and the continuation re-posts with `lower_bound` set to
the response's `next_key` — a direct `data["next_key"]` lookup whose
failure is an uncaught `KeyError`. Exhausted fuel is the `ValueError` of the
`for`/`else`. A non-sequence `rows` value is the untyped error Python
raises at `rows += data["rows"]`. -/
def tableLoop (net : Net) (server : Nat → TransportResult) (full : Bool) :
    List (String × JsonVal) → List JsonVal → Nat → Nat →
    TableRowsOutcome × List Post
  | _, _, _, 0 => (TableRowsOutcome.err (NetError.tooManyRequests tooManyMsg), [])
  | payload, rows0, n, fuel+1 =>
      let r := net._request server n tableEndpoint payload
      let step : TableRowsOutcome × List Post :=
        match r.outcome with
        | Except.error e => (TableRowsOutcome.err e, [])
        | Except.ok data =>
            match dictLookup data ("rows") with
            | none => (TableRowsOutcome.raw data, [])
            | some (JsonVal.arr xs) =>
                if full = false ∨ moreTruthy data = false then
                  (TableRowsOutcome.rows (rows0 ++ xs), [])
                else
                  match dictLookup data ("next_key") with
                  | none => (TableRowsOutcome.err (NetError.keyError ("next_key")), [])
                  | some nk =>
                      tableLoop net server full
                        (dictSet payload ("lower_bound") nk) (rows0 ++ xs)
                        (n + 1) fuel
            | some _ => (TableRowsOutcome.err NetError.typeError, [])
      (step.1, r.post :: step.2)

/-- The raw payload dict literal `get_table_rows` builds from its parameters
(net.py lines 277-290), `None`-valued optionals embedded as `null`. -/
def tableRowsRawPayload (code tbl scope : String) (json : Bool)
    (index_position key_type encode_type lower_bound upper_bound : JsonVal)
    (limit : Int) (reverse show_payer : JsonVal) :
    List (String × JsonVal) :=
  [(("code"), JsonVal.str code),
   (("table"), JsonVal.str tbl),
   (("scope"), JsonVal.str scope),
   (("json"), JsonVal.bool json),
   (("index_position"), index_position),
   (("key_type"), key_type),
   (("encode_type"), encode_type),
   (("lower_bound"), lower_bound),
   (("upper_bound"), upper_bound),
   (("limit"), JsonVal.num limit),
   (("reverse"), reverse),
   (("show_payer"), show_payer)]

/-- The filtered payload `{k: v for k, v in payload.items() if v is not
None}` of `get_table_rows` (net.py line 291). -/
def tableRowsPayload (code tbl scope : String) (json : Bool)
    (index_position key_type encode_type lower_bound upper_bound : JsonVal)
    (limit : Int) (reverse show_payer : JsonVal) :
    List (String × JsonVal) :=
  (tableRowsRawPayload code tbl scope json index_position key_type encode_type
      lower_bound upper_bound limit reverse show_payer).filter
    (fun kv => !kv.2.isNull)

/-- Embeds `Net.get_table_rows` (net.py lines 244-309): build the filtered
payload, then run the pagination loop with an iteration budget of 1000.
Returns the outcome together with the trace of requests issued. -/
def Net.get_table_rows (net : Net) (server : Nat → TransportResult)
    (code tbl scope : String) (json : Bool)
    (index_position key_type encode_type lower_bound upper_bound : JsonVal)
    (limit : Int) (reverse show_payer : JsonVal) (full : Bool) :
    TableRowsOutcome × List Post :=
  tableLoop net server full
    (tableRowsPayload code tbl scope json index_position key_type encode_type
      lower_bound upper_bound limit reverse show_payer)
    [] 0 1000

/-- True when the response body has a `rows` key holding a sequence. -/
def hasRowsArr (p : JsonVal) : Bool :=
  match dictLookup p ("rows") with
  | some (JsonVal.arr _) => true
  | _ => false

/-- A non-final server page: a `rows` sequence, a truthy `more`, and a
`next_key` continuation token. -/
def isMidPage (p : JsonVal) : Bool :=
  hasRowsArr p && moreTruthy p && (dictLookup p ("next_key")).isSome

/-- A final server page: a `rows` sequence and no (or falsy) `more`. -/
def isLastPage (p : JsonVal) : Bool :=
  hasRowsArr p && !moreTruthy p

/-- The `rows` sequence of a page (empty when absent or not a sequence). -/
def pageRows (p : JsonVal) : List JsonVal :=
  match dictLookup p ("rows") with
  | some (JsonVal.arr xs) => xs
  | _ => []

/-- The `next_key` continuation token of a page. -/
def pageNext (p : JsonVal) : JsonVal :=
  (dictLookup p ("next_key")).getD JsonVal.null

/-- The sequence of payloads the pagination loop posts while consuming the
given pages: each page's `next_key` is assigned into `lower_bound` for the
following request. -/
def chainPayloads (payload : List (String × JsonVal)) :
    List JsonVal → List (List (String × JsonVal))
  | [] => []
  | p :: rest =>
      payload :: chainPayloads (dictSet payload ("lower_bound") (pageNext p)) rest

/-- The payload reached after consuming the given pages. -/
def chainFinal (payload : List (String × JsonVal)) (pages : List JsonVal) :
    List (String × JsonVal) :=
  pages.foldl (fun pl p => dictSet pl ("lower_bound") (pageNext p)) payload

/-! Concrete data used by the witness theorems. -/

/-- A connection target holding no client (the local preset host). -/
def netNoClient : Net :=
  { host := "http://127.0.0.1:8888", headers := [], auth := none, client := none }

/-- An open caller-supplied client. -/
def suppliedClient : Client := { isOpen := true }

/-- A connection target constructed with a caller-supplied client. -/
def netWithSupplied : Net :=
  { host := "http://127.0.0.1:8888", headers := [], auth := none,
    client := some suppliedClient }

/-- A wire that always answers 200 with an empty object. -/
def okServer : Nat → TransportResult :=
  fun _ => TransportResult.resp 200 (JsonVal.obj [])

/-- A wire that always times out. -/
def timeoutServer : Nat → TransportResult :=
  fun _ => TransportResult.exc TransportExc.timeout

/-- A wire that always answers 404 with an empty object. -/
def err404Server : Nat → TransportResult :=
  fun _ => TransportResult.resp 404 (JsonVal.obj [])

/-- First page of the two-page scenario: rows [1, 2], more pages, token x. -/
def pageOne : JsonVal :=
  JsonVal.obj
    [(("rows"), JsonVal.arr [JsonVal.num 1, JsonVal.num 2]),
     (("more"), JsonVal.bool true),
     (("next_key"), JsonVal.str ("x"))]

/-- Second page of the two-page scenario: rows [3], no more pages. -/
def pageTwo : JsonVal :=
  JsonVal.obj
    [(("rows"), JsonVal.arr [JsonVal.num 3]),
     (("more"), JsonVal.bool false)]

/-- The two-page scenario of the spec. -/
def twoPages : List JsonVal := [pageOne, pageTwo]

/-- A wire serving the two-page scenario in order. -/
def twoPageServer : Nat → TransportResult :=
  fun n =>
    if n = 0 then TransportResult.resp 200 pageOne
    else TransportResult.resp 200 pageTwo

/-- A page that always announces a further page. -/
def loopPage : JsonVal :=
  JsonVal.obj
    [(("rows"), JsonVal.arr [JsonVal.num 7]),
     (("more"), JsonVal.bool true),
     (("next_key"), JsonVal.str ("x"))]

/-- A wire whose continuation never terminates. -/
def loopServer : Nat → TransportResult :=
  fun _ => TransportResult.resp 200 loopPage

/-- A structured application-error body with no `rows` key. -/
def errorBody : JsonVal :=
  JsonVal.obj [(("code"), JsonVal.num 500)]

/-- A wire serving one good page and then a body without a `rows` key. -/
def rawAfterOneServer : Nat → TransportResult :=
  fun n =>
    if n = 0 then TransportResult.resp 200 pageOne
    else TransportResult.resp 200 errorBody

/-- A page with rows and a truthy `more` but no `next_key`. -/
def noKeyPage : JsonVal :=
  JsonVal.obj
    [(("rows"), JsonVal.arr [JsonVal.num 9]),
     (("more"), JsonVal.bool true)]

/-- A wire serving one good page and then a page lacking `next_key`. -/
def noKeyAfterOneServer : Nat → TransportResult :=
  fun n =>
    if n = 0 then TransportResult.resp 200 pageOne
    else TransportResult.resp 200 noKeyPage

/-! Helper lemmas. -/

/-- Assigning a key makes it look up to the assigned value. -/
theorem alookup_dictSet {α : Type} (d : List (String × α)) (k : String) (v : α) :
    alookup (dictSet d k v) k = some v := by
  induction d with
  | nil => simp [dictSet, alookup]
  | cons kv rest ih =>
      by_cases h : kv.1 = k
      · simp [dictSet, h, alookup]
      · simpa [dictSet, h, alookup] using ih

/-- The request handed to `post` by `_request` is the composed one; in
particular its payload is exactly the payload `_request` was given. -/
theorem request_post_eq (net : Net) (server : Nat → TransportResult) (n : Nat)
    (ep : String) (pl : List (String × JsonVal)) :
    (net._request server n ep pl).post = net.composePost ep pl := by
  cases hc : net.client <;> simp [Net._request, hc]

/-- On a ready target, the outcome of `_request` is the classification of the
wire's response. -/
theorem request_outcome_resp (net : Net) (server : Nat → TransportResult)
    (n : Nat) (ep : String) (pl : List (String × JsonVal)) (s : Nat)
    (body : JsonVal) (hready : net.clientReady = true)
    (hs : server n = TransportResult.resp s body) :
    (net._request server n ep pl).outcome
      = if 299 < s ∧ s ≠ 500 then
          Except.error
            (NetError.connectionError (some (s, body)) (urljoin net.host ep) pl none)
        else Except.ok body := by
  cases hc : net.client with
  | none =>
      simp [Net._request, hc, Client.post, hs, requestClassify, Net.composePost]
  | some c =>
      have hopen : c.isOpen = true := by
        simpa [Net.clientReady, hc] using hready
      simp [Net._request, hc, Client.post, hopen, hs, requestClassify,
        Net.composePost]

/-- On a ready target, a caught transport exception is classified as a
connection error carrying that exception as cause. -/
theorem request_outcome_exc (net : Net) (server : Nat → TransportResult)
    (n : Nat) (ep : String) (pl : List (String × JsonVal)) (e : TransportExc)
    (hready : net.clientReady = true)
    (hs : server n = TransportResult.exc e) :
    (net._request server n ep pl).outcome
      = Except.error
          (NetError.connectionError none (urljoin net.host ep) pl (some e)) := by
  cases hc : net.client with
  | none =>
      simp [Net._request, hc, Client.post, hs, requestClassify, Net.composePost]
  | some c =>
      have hopen : c.isOpen = true := by
        simpa [Net.clientReady, hc] using hready
      simp [Net._request, hc, Client.post, hopen, hs, requestClassify,
        Net.composePost]

/-- On a ready target, a 200 response is returned as parsed success. -/
theorem request_outcome_200 (net : Net) (server : Nat → TransportResult)
    (n : Nat) (ep : String) (pl : List (String × JsonVal)) (body : JsonVal)
    (hready : net.clientReady = true)
    (hs : server n = TransportResult.resp 200 body) :
    (net._request server n ep pl).outcome = Except.ok body := by
  rw [request_outcome_resp net server n ep pl 200 body hready hs, if_neg]
  omega

/-- Unpacking a non-final page. -/
theorem isMidPage_spec (p : JsonVal) (h : isMidPage p = true) :
    ∃ xs nk, dictLookup p ("rows") = some (JsonVal.arr xs)
      ∧ moreTruthy p = true
      ∧ dictLookup p ("next_key") = some nk := by
  have h' := h
  simp only [isMidPage, Bool.and_eq_true] at h'
  obtain ⟨⟨h1, h2⟩, h3⟩ := h'
  rcases hr : dictLookup p ("rows") with _ | v
  · rw [hasRowsArr, hr] at h1; exact absurd h1 (by simp)
  · rcases hk : dictLookup p ("next_key") with _ | nk
    · rw [hk] at h3; exact absurd h3 (by simp [Option.isSome])
    · cases v with
      | arr xs => exact ⟨xs, nk, rfl, h2, rfl⟩
      | null => rw [hasRowsArr, hr] at h1; exact absurd h1 (by simp)
      | bool b => rw [hasRowsArr, hr] at h1; exact absurd h1 (by simp)
      | num m => rw [hasRowsArr, hr] at h1; exact absurd h1 (by simp)
      | str s => rw [hasRowsArr, hr] at h1; exact absurd h1 (by simp)
      | obj fs => rw [hasRowsArr, hr] at h1; exact absurd h1 (by simp)

/-- Unpacking a final page. -/
theorem isLastPage_spec (p : JsonVal) (h : isLastPage p = true) :
    ∃ xs, dictLookup p ("rows") = some (JsonVal.arr xs)
      ∧ moreTruthy p = false := by
  have h' := h
  simp only [isLastPage, Bool.and_eq_true] at h'
  obtain ⟨h1, h2⟩ := h'
  rcases hr : dictLookup p ("rows") with _ | v
  · rw [hasRowsArr, hr] at h1; exact absurd h1 (by simp)
  · cases v with
    | arr xs => exact ⟨xs, rfl, by simpa using h2⟩
    | null => rw [hasRowsArr, hr] at h1; exact absurd h1 (by simp)
    | bool b => rw [hasRowsArr, hr] at h1; exact absurd h1 (by simp)
    | num m => rw [hasRowsArr, hr] at h1; exact absurd h1 (by simp)
    | str s => rw [hasRowsArr, hr] at h1; exact absurd h1 (by simp)
    | obj fs => rw [hasRowsArr, hr] at h1; exact absurd h1 (by simp)

/-- One loop iteration on a final page: the loop stops and returns the
accumulated rows extended by this page's rows, after this one request. -/
theorem tableLoop_step_last (net : Net) (server : Nat → TransportResult)
    (payload : List (String × JsonVal)) (rows0 : List JsonVal) (n fuel : Nat)
    (body : JsonVal) (xs : List JsonVal)
    (hready : net.clientReady = true)
    (hs : server n = TransportResult.resp 200 body)
    (hrows : dictLookup body ("rows") = some (JsonVal.arr xs))
    (hmore : moreTruthy body = false) :
    tableLoop net server true payload rows0 n (fuel + 1)
      = (TableRowsOutcome.rows (rows0 ++ xs),
         [net.composePost tableEndpoint payload]) := by
  have hout := request_outcome_200 net server n tableEndpoint payload body hready hs
  have hpost := request_post_eq net server n tableEndpoint payload
  simp [tableLoop, hout, hpost, hrows, hmore]

/-- One loop iteration on a body without a `rows` key: the loop returns that
raw body unchanged, whatever rows were already accumulated. -/
theorem tableLoop_step_raw (net : Net) (server : Nat → TransportResult)
    (full : Bool) (payload : List (String × JsonVal)) (rows0 : List JsonVal)
    (n fuel : Nat) (body : JsonVal)
    (hready : net.clientReady = true)
    (hs : server n = TransportResult.resp 200 body)
    (hrows : dictLookup body ("rows") = none) :
    tableLoop net server full payload rows0 n (fuel + 1)
      = (TableRowsOutcome.raw body,
         [net.composePost tableEndpoint payload]) := by
  have hout := request_outcome_200 net server n tableEndpoint payload body hready hs
  have hpost := request_post_eq net server n tableEndpoint payload
  simp [tableLoop, hout, hpost, hrows]

/-- One loop iteration on a page announcing more pages but lacking
`next_key`: the direct `data["next_key"]` lookup fails with a `KeyError`,
dropping the accumulated rows. -/
theorem tableLoop_step_nokey (net : Net) (server : Nat → TransportResult)
    (payload : List (String × JsonVal)) (rows0 : List JsonVal) (n fuel : Nat)
    (body : JsonVal) (xs : List JsonVal)
    (hready : net.clientReady = true)
    (hs : server n = TransportResult.resp 200 body)
    (hrows : dictLookup body ("rows") = some (JsonVal.arr xs))
    (hmore : moreTruthy body = true)
    (hnk : dictLookup body ("next_key") = none) :
    tableLoop net server true payload rows0 n (fuel + 1)
      = (TableRowsOutcome.err (NetError.keyError ("next_key")),
         [net.composePost tableEndpoint payload]) := by
  have hout := request_outcome_200 net server n tableEndpoint payload body hready hs
  have hpost := request_post_eq net server n tableEndpoint payload
  simp [tableLoop, hout, hpost, hrows, hmore, hnk]

/-- One loop iteration on a non-final page: the page's rows are appended,
`lower_bound` is set to the page's `next_key`, and the loop continues. -/
theorem tableLoop_step_mid (net : Net) (server : Nat → TransportResult)
    (payload : List (String × JsonVal)) (rows0 : List JsonVal) (n fuel : Nat)
    (body : JsonVal) (xs : List JsonVal) (nk : JsonVal)
    (hready : net.clientReady = true)
    (hs : server n = TransportResult.resp 200 body)
    (hrows : dictLookup body ("rows") = some (JsonVal.arr xs))
    (hmore : moreTruthy body = true)
    (hnk : dictLookup body ("next_key") = some nk) :
    tableLoop net server true payload rows0 n (fuel + 1)
      = ((tableLoop net server true (dictSet payload ("lower_bound") nk)
            (rows0 ++ xs) (n + 1) fuel).1,
         net.composePost tableEndpoint payload
           :: (tableLoop net server true (dictSet payload ("lower_bound") nk)
                (rows0 ++ xs) (n + 1) fuel).2) := by
  have hout := request_outcome_200 net server n tableEndpoint payload body hready hs
  have hpost := request_post_eq net server n tableEndpoint payload
  simp [tableLoop, hout, hpost, hrows, hmore, hnk]

/-- Consuming a block of non-final pages: the full-read loop issues one
request per page (posting the chained payloads, each carrying the previous
page's `next_key` as `lower_bound`), appends all their rows in page order,
and then continues as the loop started with the chained state. -/
theorem tableLoop_unroll (net : Net) (server : Nat → TransportResult)
    (hready : net.clientReady = true) :
    ∀ (good : List JsonVal) (payload : List (String × JsonVal))
      (rows0 : List JsonVal) (n fuel : Nat),
    (∀ i (h : i < good.length), isMidPage (good.get ⟨i, h⟩) = true) →
    (∀ i (h : i < good.length),
        server (n + i) = TransportResult.resp 200 (good.get ⟨i, h⟩)) →
    good.length ≤ fuel →
    tableLoop net server true payload rows0 n fuel
      = ((tableLoop net server true (chainFinal payload good)
            (rows0 ++ (good.map pageRows).flatten) (n + good.length)
            (fuel - good.length)).1,
         (chainPayloads payload good).map (net.composePost tableEndpoint)
           ++ (tableLoop net server true (chainFinal payload good)
                (rows0 ++ (good.map pageRows).flatten) (n + good.length)
                (fuel - good.length)).2) := by
  intro good
  induction good with
  | nil =>
      intro payload rows0 n fuel _ _ _
      simp [chainFinal, chainPayloads]
  | cons p rest ih =>
      intro payload rows0 n fuel hmid hserver hfuel
      obtain ⟨f, rfl⟩ : ∃ f, fuel = f + 1 := by
        cases fuel with
        | zero => exact absurd hfuel (by simp)
        | succ f => exact ⟨f, rfl⟩
      have hmid0 : isMidPage p = true := hmid 0 (by simp)
      obtain ⟨xs, nk, hrows, hmore, hnk⟩ := isMidPage_spec p hmid0
      have hs0 : server n = TransportResult.resp 200 p := by
        have := hserver 0 (by simp)
        simpa using this
      rw [tableLoop_step_mid net server payload rows0 n f p xs nk hready hs0
        hrows hmore hnk]
      have hmid' : ∀ i (h : i < rest.length),
          isMidPage (rest.get ⟨i, h⟩) = true := by
        intro i h
        exact hmid (i + 1) (Nat.succ_lt_succ h)
      have hserver' : ∀ i (h : i < rest.length),
          server (n + 1 + i) = TransportResult.resp 200 (rest.get ⟨i, h⟩) := by
        intro i h
        have := hserver (i + 1) (Nat.succ_lt_succ h)
        have harith : n + (i + 1) = n + 1 + i := by omega
        rw [harith] at this
        exact this
      have hfuel' : rest.length ≤ f := by
        simp only [List.length_cons] at hfuel
        omega
      rw [ih (dictSet payload ("lower_bound") nk) (rows0 ++ xs) (n + 1) f
        hmid' hserver' hfuel']
      have hchainF : chainFinal payload (p :: rest)
          = chainFinal (dictSet payload ("lower_bound") nk) rest := by
        simp [chainFinal, pageNext, hnk]
      have hchainP : chainPayloads payload (p :: rest)
          = payload :: chainPayloads (dictSet payload ("lower_bound") nk) rest := by
        simp [chainPayloads, pageNext, hnk]
      have hrowsj : rows0 ++ ((p :: rest).map pageRows).flatten
          = (rows0 ++ xs) ++ (rest.map pageRows).flatten := by
        simp [pageRows, hrows, List.append_assoc]
      have hlen : n + (p :: rest).length = n + 1 + rest.length := by
        simp only [List.length_cons]
        omega
      have hsub : f + 1 - (p :: rest).length = f - rest.length := by
        simp only [List.length_cons]
        omega
      rw [hchainF, hchainP, hrowsj, hlen, hsub]
      simp

/-- One chained payload per page consumed. -/
theorem chainPayloads_length (pages : List JsonVal) :
    ∀ payload, (chainPayloads payload pages).length = pages.length := by
  induction pages with
  | nil => intro payload; simp [chainPayloads]
  | cons p rest ih => intro payload; simp [chainPayloads, ih]

/-- Splitting the chained payloads at the last page: the last page is posted
with the payload reached after all earlier pages. -/
theorem chainPayloads_append (pages : List JsonVal) :
    ∀ payload p,
      chainPayloads payload (pages ++ [p])
        = chainPayloads payload pages ++ [chainFinal payload pages] := by
  induction pages with
  | nil => intro payload p; simp [chainPayloads, chainFinal]
  | cons q rest ih =>
      intro payload p
      have hsplit : (q :: rest) ++ [p] = q :: (rest ++ [p]) := by simp
      rw [hsplit, chainPayloads, ih]
      simp [chainPayloads, chainFinal]

/-- Every chained payload after the first carries the previous page's
`next_key` as its `lower_bound`. -/
theorem chainPayloads_get (pages : List JsonVal) :
    ∀ payload i (h1 : i + 1 < (chainPayloads payload pages).length)
      (h2 : i + 1 < pages.length),
      alookup ((chainPayloads payload pages).get ⟨i + 1, h1⟩) ("lower_bound")
        = some (pageNext (pages.get ⟨i, Nat.lt_of_succ_lt h2⟩)) := by
  induction pages with
  | nil => intro payload i h1 h2; exact absurd h2 (by simp)
  | cons p rest ih =>
      intro payload i h1 h2
      cases i with
      | zero =>
          have hrest : rest ≠ [] := by
            intro hn
            rw [hn] at h2
            simp at h2
          obtain ⟨q, rest', rfl⟩ := List.exists_cons_of_ne_nil hrest
          simp only [chainPayloads, List.get]
          exact alookup_dictSet payload ("lower_bound") (pageNext p)
      | succ j =>
          simp only [chainPayloads, List.get] at h1 ⊢
          exact ih (dictSet payload ("lower_bound") (pageNext p)) j
            (by simpa [chainPayloads] using h1)
            (by simpa using h2)

/-- With fuel remaining, the first request of the loop posts exactly the
payload the loop was started with. -/
theorem tableLoop_head_payload (net : Net) (server : Nat → TransportResult)
    (full : Bool) (payload : List (String × JsonVal)) (rows0 : List JsonVal)
    (n fuel : Nat) :
    (tableLoop net server full payload rows0 n (fuel + 1)).2.head?.map Post.payload
      = some payload := by
  have hpost := request_post_eq net server n tableEndpoint payload
  rcases hout : (net._request server n tableEndpoint payload).outcome with e | data
  · simp [tableLoop, hout, hpost, Net.composePost]
  · rcases hrows : dictLookup data ("rows") with _ | v
    · simp [tableLoop, hout, hpost, hrows, Net.composePost]
    · cases v <;> simp [tableLoop, hout, hpost, hrows, Net.composePost]

/-- A non-full run performs exactly one loop iteration, whatever the wire
answers: the trace is the single composed request. -/
theorem tableLoop_notFull (net : Net) (server : Nat → TransportResult)
    (payload : List (String × JsonVal)) (rows0 : List JsonVal) (n fuel : Nat) :
    (tableLoop net server false payload rows0 n (fuel + 1)).2
      = [(net._request server n tableEndpoint payload).post] := by
  rcases hout : (net._request server n tableEndpoint payload).outcome with e | data
  · simp [tableLoop, hout]
  · rcases hrows : dictLookup data ("rows") with _ | v
    · simp [tableLoop, hout, hrows]
    · cases v <;> simp [tableLoop, hout, hrows]

/-! Claim theorems. -/

/-- C1: for every call through the request executor on a ready target, a
transport timeout/network/write error yields a `ConnectionError` carrying
that error as cause; a response status in (299, 500) or above 500 yields a
`ConnectionError` carrying the raw response; a status equal to 500 or at
most 299 yields the parsed JSON body as success; and this trichotomy is
exhaustive over the wire's possible behaviours, so no other failure kind is
produced. -/
theorem C1_request_classification (net : Net) (server : Nat → TransportResult)
    (n : Nat) (ep : String) (pl : List (String × JsonVal))
    (hready : net.clientReady = true) :
    (∀ e, server n = TransportResult.exc e →
        (net._request server n ep pl).outcome
          = Except.error
              (NetError.connectionError none (urljoin net.host ep) pl (some e))) ∧
    (∀ s body, server n = TransportResult.resp s body → 299 < s → s ≠ 500 →
        (net._request server n ep pl).outcome
          = Except.error
              (NetError.connectionError (some (s, body)) (urljoin net.host ep) pl none)) ∧
    (∀ s body, server n = TransportResult.resp s body → s ≤ 299 ∨ s = 500 →
        (net._request server n ep pl).outcome = Except.ok body) := by
  refine ⟨?_, ?_, ?_⟩
  · intro e hs
    exact request_outcome_exc net server n ep pl e hready hs
  · intro s body hs h1 h2
    rw [request_outcome_resp net server n ep pl s body hready hs, if_pos ⟨h1, h2⟩]
  · intro s body hs h
    rw [request_outcome_resp net server n ep pl s body hready hs, if_neg]
    omega

/-- Witness for C1: on the local target with no held client, a timeout, a
404 response and a 200 response are classified as the claim states. -/
theorem C1_witness :
    netNoClient.clientReady = true ∧
    (netNoClient._request timeoutServer 0 ("/v1/chain/get_info") []).outcome
      = Except.error (NetError.connectionError none
          (urljoin netNoClient.host ("/v1/chain/get_info")) []
          (some TransportExc.timeout)) ∧
    (netNoClient._request err404Server 0 ("/v1/chain/get_info") []).outcome
      = Except.error (NetError.connectionError (some (404, JsonVal.obj []))
          (urljoin netNoClient.host ("/v1/chain/get_info")) [] none) ∧
    (netNoClient._request okServer 0 ("/v1/chain/get_info") []).outcome
      = Except.ok (JsonVal.obj []) :=
  ⟨rfl,
   (C1_request_classification netNoClient timeoutServer 0
       ("/v1/chain/get_info") [] rfl).1 TransportExc.timeout rfl,
   (C1_request_classification netNoClient err404Server 0
       ("/v1/chain/get_info") [] rfl).2.1 404 (JsonVal.obj []) rfl
     (by omega) (by omega),
   (C1_request_classification netNoClient okServer 0
       ("/v1/chain/get_info") [] rfl).2.2 200 (JsonVal.obj []) rfl
     (Or.inl (by omega))⟩

/-- C6: after a scoped acquisition on a connection target is released, every
subsequent request through that target fails with the use-after-close
error, and no fresh transport handle is silently opened for it. -/
theorem C6_use_after_close (net : Net) (server : Nat → TransportResult)
    (n : Nat) (ep : String) (pl : List (String × JsonVal)) :
    ((net.enter.exitScope)._request server n ep pl).outcome
        = Except.error NetError.useAfterClose ∧
    ((net.enter.exitScope)._request server n ep pl).createdEphemeral = false := by
  cases hc : net.client with
  | none =>
      simp [Net.enter, Net.exitScope, hc, Net._request, Client.post,
        Client.close, requestClassify]
  | some c =>
      simp [Net.enter, Net.exitScope, hc, Net._request, Client.post,
        Client.close, requestClassify]

/-- C8: a non-full table read issues exactly one request, whatever the wire
answers and independently of any `more` flag in the response. -/
theorem C8_notFull_single_request (net : Net) (server : Nat → TransportResult)
    (code tbl scope : String) (json : Bool)
    (index_position key_type encode_type lower_bound upper_bound : JsonVal)
    (limit : Int) (reverse show_payer : JsonVal) :
    (net.get_table_rows server code tbl scope json index_position key_type
        encode_type lower_bound upper_bound limit reverse show_payer
        false).2.length = 1 := by
  have h1000 : (1000 : Nat) = 999 + 1 := rfl
  rw [Net.get_table_rows, h1000, tableLoop_notFull]
  simp

/-- C9: construction of a connection target succeeds exactly on host strings
that validate as absolute HTTP(S) URLs, and fails immediately with the
configuration error otherwise. -/
theorem C9_host_validation (host : String) (headers : List (String × String))
    (auth : Option (String × String)) (client : Option Client) :
    (isHttpUrl host = true →
        Net.init host headers auth client
          = Except.ok
              { host := host, headers := headers, auth := auth, client := client }) ∧
    (isHttpUrl host = false →
        Net.init host headers auth client
          = Except.error NetError.configurationError) := by
  constructor
  · intro h; simp [Net.init, h]
  · intro h; simp [Net.init, h]

/-- Witness for C9: the local host URL validates and constructs; an
`rpc://` host fails validation and construction. -/
theorem C9_witness :
    (isHttpUrl ("http://127.0.0.1:8888") = true ∧
      Net.init ("http://127.0.0.1:8888") [] none none
        = Except.ok
            { host := "http://127.0.0.1:8888", headers := [], auth := none,
              client := none }) ∧
    (isHttpUrl ("rpc://127.0.0.1:8888") = false ∧
      Net.init ("rpc://127.0.0.1:8888") [] none none
        = Except.error NetError.configurationError) :=
  ⟨⟨by decide, (C9_host_validation ("http://127.0.0.1:8888") [] none none).1 (by decide)⟩,
   ⟨by decide, (C9_host_validation ("rpc://127.0.0.1:8888") [] none none).2 (by decide)⟩⟩

/-- C4 counterexample: a payload with a None-valued key handed directly to
the request executor reaches the transport's `post` with that key intact —
the executor itself strips nothing. -/
theorem C4_counterexample :
    (netNoClient._request okServer 0 ("/v1/chain/get_info")
        [(("a"), JsonVal.null)]).post.payload
      = [(("a"), JsonVal.null)] := rfl

/-- C4 amended: the null-key stripping happens in the payload-building
operation (`get_table_rows`), not in the request executor. The executor
hands its payload to `post` verbatim; the table-read call posts, as its
first request, exactly its constructed payload with every None-valued key
removed and every non-null key preserved verbatim. -/
theorem C4_amended_payload_filtering (net : Net)
    (server : Nat → TransportResult) (n : Nat) (ep : String)
    (pl : List (String × JsonVal)) (code tbl scope : String) (json : Bool)
    (index_position key_type encode_type lower_bound upper_bound : JsonVal)
    (limit : Int) (reverse show_payer : JsonVal) (full : Bool) :
    ((net._request server n ep pl).post.payload = pl) ∧
    ((net.get_table_rows server code tbl scope json index_position key_type
        encode_type lower_bound upper_bound limit reverse show_payer
        full).2.head?.map Post.payload
      = some (tableRowsPayload code tbl scope json index_position key_type
          encode_type lower_bound upper_bound limit reverse show_payer)) ∧
    (∀ kv, kv ∈ tableRowsPayload code tbl scope json index_position key_type
          encode_type lower_bound upper_bound limit reverse show_payer →
        kv.2.isNull = false
          ∧ kv ∈ tableRowsRawPayload code tbl scope json index_position
              key_type encode_type lower_bound upper_bound limit reverse
              show_payer) ∧
    (∀ kv, kv ∈ tableRowsRawPayload code tbl scope json index_position
          key_type encode_type lower_bound upper_bound limit reverse
          show_payer →
        kv.2.isNull = false →
        kv ∈ tableRowsPayload code tbl scope json index_position key_type
          encode_type lower_bound upper_bound limit reverse show_payer) := by
  refine ⟨?_, ?_, ?_, ?_⟩
  · rw [request_post_eq]
    rfl
  · have h1000 : (1000 : Nat) = 999 + 1 := rfl
    rw [Net.get_table_rows, h1000, tableLoop_head_payload]
  · intro kv hkv
    have h := List.mem_filter.mp hkv
    refine ⟨?_, h.1⟩
    have := h.2
    simpa using this
  · intro kv hkv hnull
    exact List.mem_filter.mpr ⟨hkv, by simp [hnull]⟩

/-- Witness for the amended C4: on a concrete table read the first posted
payload is the filtered dict, which evaluates to exactly the non-null
entries; the `code` entry survives the filter. -/
theorem C4_amended_witness :
    ((netNoClient.get_table_rows okServer ("user2") ("messages") ("user2")
        true JsonVal.null JsonVal.null JsonVal.null JsonVal.null JsonVal.null
        1000 JsonVal.null JsonVal.null false).2.head?.map Post.payload
      = some (tableRowsPayload ("user2") ("messages") ("user2") true
          JsonVal.null JsonVal.null JsonVal.null JsonVal.null JsonVal.null
          1000 JsonVal.null JsonVal.null)) ∧
    ((("code"), JsonVal.str ("user2")).2.isNull = false
      ∧ (("code"), JsonVal.str ("user2")) ∈ tableRowsRawPayload ("user2")
          ("messages") ("user2") true JsonVal.null JsonVal.null JsonVal.null
          JsonVal.null JsonVal.null 1000 JsonVal.null JsonVal.null) ∧
    (tableRowsPayload ("user2") ("messages") ("user2") true JsonVal.null
        JsonVal.null JsonVal.null JsonVal.null JsonVal.null 1000 JsonVal.null
        JsonVal.null
      = [(("code"), JsonVal.str ("user2")),
         (("table"), JsonVal.str ("messages")),
         (("scope"), JsonVal.str ("user2")),
         (("json"), JsonVal.bool true),
         (("limit"), JsonVal.num 1000)]) :=
  ⟨(C4_amended_payload_filtering netNoClient okServer 0 ("/v1/chain/get_info")
      [] ("user2") ("messages") ("user2") true JsonVal.null JsonVal.null
      JsonVal.null JsonVal.null JsonVal.null 1000 JsonVal.null JsonVal.null
      false).2.1,
   (C4_amended_payload_filtering netNoClient okServer 0 ("/v1/chain/get_info")
      [] ("user2") ("messages") ("user2") true JsonVal.null JsonVal.null
      JsonVal.null JsonVal.null JsonVal.null 1000 JsonVal.null JsonVal.null
      false).2.2.1 (("code"), JsonVal.str ("user2")) (List.Mem.head _),
   rfl⟩

/-- C5 counterexample: an open caller-supplied handle is closed by scope
exit on the connection target — the core does close handles it did not
create. -/
theorem C5_counterexample :
    suppliedClient.isOpen = true ∧
    ((netWithSupplied.enter).exitScope).client = some { isOpen := false } :=
  ⟨rfl, rfl⟩

/-- C5 amended: outside a scope the executor creates a fresh ephemeral
handle per request exactly when no handle is held (the source never
explicitly closes that ephemeral handle), and scope exit closes whatever
handle the target holds at that point — a caller-supplied handle included
(the transport tolerates the resulting double close). -/
theorem C5_amended_handle_lifecycle (net : Net)
    (server : Nat → TransportResult) (n : Nat) (ep : String)
    (pl : List (String × JsonVal)) :
    (net.client = none →
        (net._request server n ep pl).createdEphemeral = true) ∧
    (∀ c, net.client = some c →
        (net._request server n ep pl).createdEphemeral = false) ∧
    (∀ c, net.client = some c →
        net.exitScope.client = some (Client.close c)) := by
  refine ⟨?_, ?_, ?_⟩
  · intro h; simp [Net._request, h]
  · intro c h; simp [Net._request, h]
  · intro c h; simp [Net.exitScope, h]

/-- Witness for the amended C5: a target with no handle creates an ephemeral
one for a request, a target with a supplied handle does not, and scope exit
closes the supplied handle. -/
theorem C5_amended_witness :
    ((netNoClient._request okServer 0 ("/v1/chain/get_info")
        []).createdEphemeral = true) ∧
    ((netWithSupplied._request okServer 0 ("/v1/chain/get_info")
        []).createdEphemeral = false) ∧
    (netWithSupplied.exitScope.client = some (Client.close suppliedClient)) :=
  ⟨(C5_amended_handle_lifecycle netNoClient okServer 0
      ("/v1/chain/get_info") []).1 rfl,
   (C5_amended_handle_lifecycle netWithSupplied okServer 0
      ("/v1/chain/get_info") []).2.1 suppliedClient rfl,
   (C5_amended_handle_lifecycle netWithSupplied okServer 0
      ("/v1/chain/get_info") []).2.2 suppliedClient rfl⟩

/-- Exhausted iteration budget: the loop fails with the cap error, issuing
no further request. -/
theorem tableLoop_zero (net : Net) (server : Nat → TransportResult)
    (full : Bool) (payload : List (String × JsonVal)) (rows0 : List JsonVal)
    (n : Nat) :
    tableLoop net server full payload rows0 n 0
      = (TableRowsOutcome.err (NetError.tooManyRequests tooManyMsg), []) := rfl

/-- C7: during a full read, a page response lacking a `rows` key — here
arriving after a block of well-formed pages whose rows were already
accumulated — makes the call return that raw response unchanged, discarding
every previously accumulated row. -/
theorem C7_raw_response_discards_rows (net : Net)
    (server : Nat → TransportResult) (good : List JsonVal) (bad : JsonVal)
    (code tbl scope : String) (json : Bool)
    (index_position key_type encode_type lower_bound upper_bound : JsonVal)
    (limit : Int) (reverse show_payer : JsonVal)
    (hready : net.clientReady = true)
    (hcap : good.length + 1 ≤ 1000)
    (hgood : ∀ i (h : i < good.length), isMidPage (good.get ⟨i, h⟩) = true)
    (hserver : ∀ i (h : i < good.length),
        server i = TransportResult.resp 200 (good.get ⟨i, h⟩))
    (hbad : server good.length = TransportResult.resp 200 bad)
    (hnorows : dictLookup bad ("rows") = none) :
    (net.get_table_rows server code tbl scope json index_position key_type
        encode_type lower_bound upper_bound limit reverse show_payer true).1
      = TableRowsOutcome.raw bad := by
  rw [Net.get_table_rows]
  have hserver0 : ∀ i (h : i < good.length),
      server (0 + i) = TransportResult.resp 200 (good.get ⟨i, h⟩) := by
    intro i h
    simpa using hserver i h
  rw [tableLoop_unroll net server hready good
    (tableRowsPayload code tbl scope json index_position key_type encode_type
      lower_bound upper_bound limit reverse show_payer)
    [] 0 1000 hgood hserver0 (by omega)]
  obtain ⟨m, hm⟩ : ∃ m, 1000 - good.length = m + 1 :=
    ⟨999 - good.length, by omega⟩
  rw [hm]
  have hbad' : server (0 + good.length) = TransportResult.resp 200 bad := by
    simpa using hbad
  rw [tableLoop_step_raw net server true _ _ (0 + good.length) m bad hready
    hbad' hnorows]

/-- Witness for C7: one good page is served, then a structured error body
with no `rows` key; the whole call returns that body raw. -/
theorem C7_witness :
    (netNoClient.get_table_rows rawAfterOneServer ("user2") ("messages")
        ("user2") true JsonVal.null JsonVal.null JsonVal.null JsonVal.null
        JsonVal.null 1000 JsonVal.null JsonVal.null true).1
      = TableRowsOutcome.raw errorBody := by
  refine C7_raw_response_discards_rows netNoClient rawAfterOneServer
    [pageOne] errorBody ("user2") ("messages") ("user2") true JsonVal.null
    JsonVal.null JsonVal.null JsonVal.null JsonVal.null 1000 JsonVal.null
    JsonVal.null rfl (by decide) ?_ ?_ rfl rfl
  · intro i h
    have h1 : i = 0 := by
      simp only [List.length_cons, List.length_nil] at h
      omega
    subst h1
    rfl
  · intro i h
    have h1 : i = 0 := by
      simp only [List.length_cons, List.length_nil] at h
      omega
    subst h1
    rfl

/-- C10: during a full read, a page that has rows and a truthy `more` but no
`next_key` makes the call fail with the untyped `KeyError` of the direct
`data["next_key"]` lookup — none of the typed failure kinds — and the rows
accumulated so far are lost with it. -/
theorem C10_missing_next_key (net : Net) (server : Nat → TransportResult)
    (good : List JsonVal) (bad : JsonVal) (code tbl scope : String)
    (json : Bool)
    (index_position key_type encode_type lower_bound upper_bound : JsonVal)
    (limit : Int) (reverse show_payer : JsonVal)
    (hready : net.clientReady = true)
    (hcap : good.length + 1 ≤ 1000)
    (hgood : ∀ i (h : i < good.length), isMidPage (good.get ⟨i, h⟩) = true)
    (hserver : ∀ i (h : i < good.length),
        server i = TransportResult.resp 200 (good.get ⟨i, h⟩))
    (hbad : server good.length = TransportResult.resp 200 bad)
    (hbadrows : ∃ xs, dictLookup bad ("rows") = some (JsonVal.arr xs))
    (hbadmore : moreTruthy bad = true)
    (hbadnk : dictLookup bad ("next_key") = none) :
    (net.get_table_rows server code tbl scope json index_position key_type
        encode_type lower_bound upper_bound limit reverse show_payer true).1
      = TableRowsOutcome.err (NetError.keyError ("next_key")) := by
  obtain ⟨xs, hbadrows⟩ := hbadrows
  rw [Net.get_table_rows]
  have hserver0 : ∀ i (h : i < good.length),
      server (0 + i) = TransportResult.resp 200 (good.get ⟨i, h⟩) := by
    intro i h
    simpa using hserver i h
  rw [tableLoop_unroll net server hready good
    (tableRowsPayload code tbl scope json index_position key_type encode_type
      lower_bound upper_bound limit reverse show_payer)
    [] 0 1000 hgood hserver0 (by omega)]
  obtain ⟨m, hm⟩ : ∃ m, 1000 - good.length = m + 1 :=
    ⟨999 - good.length, by omega⟩
  rw [hm]
  have hbad' : server (0 + good.length) = TransportResult.resp 200 bad := by
    simpa using hbad
  rw [tableLoop_step_nokey net server _ _ (0 + good.length) m bad xs hready
    hbad' hbadrows hbadmore hbadnk]

/-- Witness for C10: one good page is served, then a page with rows and a
truthy `more` but no `next_key`; the call fails with the `KeyError`. -/
theorem C10_witness :
    (netNoClient.get_table_rows noKeyAfterOneServer ("user2") ("messages")
        ("user2") true JsonVal.null JsonVal.null JsonVal.null JsonVal.null
        JsonVal.null 1000 JsonVal.null JsonVal.null true).1
      = TableRowsOutcome.err (NetError.keyError ("next_key")) := by
  refine C10_missing_next_key netNoClient noKeyAfterOneServer [pageOne]
    noKeyPage ("user2") ("messages") ("user2") true JsonVal.null JsonVal.null
    JsonVal.null JsonVal.null JsonVal.null 1000 JsonVal.null JsonVal.null rfl
    (by decide) ?_ ?_ rfl ⟨[JsonVal.num 9], rfl⟩ rfl rfl
  · intro i h
    have h1 : i = 0 := by
      simp only [List.length_cons, List.length_nil] at h
      omega
    subst h1
    rfl
  · intro i h
    have h1 : i = 0 := by
      simp only [List.length_cons, List.length_nil] at h
      omega
    subst h1
    rfl

/-- C3: when every page the wire serves reports more pages (rows present,
truthy `more`, a `next_key`), a full read issues exactly 1000 requests —
the loop cannot iterate further — and then fails with the fatal
too-many-requests error rather than silently truncating. -/
theorem C3_cap_exhaustion (net : Net) (server : Nat → TransportResult)
    (body : Nat → JsonVal) (code tbl scope : String) (json : Bool)
    (index_position key_type encode_type lower_bound upper_bound : JsonVal)
    (limit : Int) (reverse show_payer : JsonVal)
    (hready : net.clientReady = true)
    (hpages : ∀ i, i < 1000 →
        server i = TransportResult.resp 200 (body i)
          ∧ isMidPage (body i) = true) :
    (net.get_table_rows server code tbl scope json index_position key_type
        encode_type lower_bound upper_bound limit reverse show_payer true).1
      = TableRowsOutcome.err (NetError.tooManyRequests tooManyMsg) ∧
    (net.get_table_rows server code tbl scope json index_position key_type
        encode_type lower_bound upper_bound limit reverse show_payer
        true).2.length = 1000 := by
  have hlen : ((List.range 1000).map body).length = 1000 := by simp
  have hget : ∀ i (h : i < ((List.range 1000).map body).length),
      ((List.range 1000).map body).get ⟨i, h⟩ = body i := by
    intro i h
    simp [List.get_eq_getElem, List.getElem_map, List.getElem_range]
  have hmid : ∀ i (h : i < ((List.range 1000).map body).length),
      isMidPage (((List.range 1000).map body).get ⟨i, h⟩) = true := by
    intro i h
    rw [hget i h]
    exact (hpages i (by rw [hlen] at h; exact h)).2
  have hserver0 : ∀ i (h : i < ((List.range 1000).map body).length),
      server (0 + i)
        = TransportResult.resp 200 (((List.range 1000).map body).get ⟨i, h⟩) := by
    intro i h
    rw [hget i h]
    simpa using (hpages i (by rw [hlen] at h; exact h)).1
  rw [Net.get_table_rows]
  rw [tableLoop_unroll net server hready ((List.range 1000).map body)
    (tableRowsPayload code tbl scope json index_position key_type encode_type
      lower_bound upper_bound limit reverse show_payer)
    [] 0 1000 hmid hserver0 (by rw [hlen])]
  have hz : 1000 - ((List.range 1000).map body).length = 0 := by
    rw [hlen]
  rw [hz, tableLoop_zero]
  refine ⟨rfl, ?_⟩
  simp [chainPayloads_length]

/-- Witness for C3: a wire that always serves the same more-pages page makes
the full read fail with the cap error after exactly 1000 requests. -/
theorem C3_witness :
    (netNoClient.get_table_rows loopServer ("user2") ("longtable") ("user2")
        true JsonVal.null JsonVal.null JsonVal.null JsonVal.null JsonVal.null
        1000 JsonVal.null JsonVal.null true).1
      = TableRowsOutcome.err (NetError.tooManyRequests tooManyMsg) ∧
    (netNoClient.get_table_rows loopServer ("user2") ("longtable") ("user2")
        true JsonVal.null JsonVal.null JsonVal.null JsonVal.null JsonVal.null
        1000 JsonVal.null JsonVal.null true).2.length = 1000 :=
  C3_cap_exhaustion netNoClient loopServer (fun _ => loopPage) ("user2")
    ("longtable") ("user2") true JsonVal.null JsonVal.null JsonVal.null
    JsonVal.null JsonVal.null 1000 JsonVal.null JsonVal.null rfl
    (fun _ _ => ⟨rfl, rfl⟩)

/-- C2: for a finite server-side page sequence of length k ≤ 1000 — every
page before the last carrying a rows sequence, a truthy `more` and a
`next_key`, the last carrying rows and no more pages — a full read returns
exactly the concatenation of all pages' rows in page order with no
reordering or deduplication, issues exactly k requests, and every request
after the first carries the previous page's `next_key` verbatim as its
`lower_bound`. -/
theorem C2_full_pagination (net : Net) (server : Nat → TransportResult)
    (pages : List JsonVal) (code tbl scope : String) (json : Bool)
    (index_position key_type encode_type lower_bound upper_bound : JsonVal)
    (limit : Int) (reverse show_payer : JsonVal)
    (hready : net.clientReady = true)
    (hne : pages ≠ [])
    (hcap : pages.length ≤ 1000)
    (hmid : ∀ i (h : i + 1 < pages.length),
        isMidPage (pages.get ⟨i, Nat.lt_of_succ_lt h⟩) = true)
    (hlast : isLastPage (pages.getLast hne) = true)
    (hserver : ∀ i (h : i < pages.length),
        server i = TransportResult.resp 200 (pages.get ⟨i, h⟩)) :
    (net.get_table_rows server code tbl scope json index_position key_type
        encode_type lower_bound upper_bound limit reverse show_payer true).1
      = TableRowsOutcome.rows ((pages.map pageRows).flatten) ∧
    (net.get_table_rows server code tbl scope json index_position key_type
        encode_type lower_bound upper_bound limit reverse show_payer
        true).2.length = pages.length ∧
    (∀ i (h2 : i + 1 < pages.length),
      ((net.get_table_rows server code tbl scope json index_position key_type
          encode_type lower_bound upper_bound limit reverse show_payer
          true).2[i + 1]?).map (fun q => alookup q.payload ("lower_bound"))
        = some (some (pageNext (pages.get ⟨i, Nat.lt_of_succ_lt h2⟩)))) := by
  obtain ⟨good, lastp, hsplit⟩ : ∃ good lastp, pages = good ++ [lastp] :=
    ⟨pages.dropLast, pages.getLast hne, (List.dropLast_append_getLast hne).symm⟩
  subst hsplit
  have hlastp : (good ++ [lastp]).getLast hne = lastp := by
    simp [List.getLast_append]
  rw [hlastp] at hlast
  obtain ⟨xs, hrows, hmore⟩ := isLastPage_spec lastp hlast
  have hgetg : ∀ i (hi : i < good.length)
      (hip : i < (good ++ [lastp]).length),
      (good ++ [lastp]).get ⟨i, hip⟩ = good.get ⟨i, hi⟩ := by
    intro i hi hip
    simp [List.get_eq_getElem]
    rw [List.getElem_append_left]
  have hgetlast : ∀ (hp : good.length < (good ++ [lastp]).length),
      (good ++ [lastp]).get ⟨good.length, hp⟩ = lastp := by
    intro hp
    simp [List.get_eq_getElem, List.getElem_concat_length]
  have hmidg : ∀ i (h : i < good.length),
      isMidPage (good.get ⟨i, h⟩) = true := by
    intro i h
    have h2 : i + 1 < (good ++ [lastp]).length := by
      simp
      omega
    have hm2 := hmid i h2
    rwa [hgetg i h (Nat.lt_of_succ_lt h2)] at hm2
  have hserverg : ∀ i (h : i < good.length),
      server (0 + i) = TransportResult.resp 200 (good.get ⟨i, h⟩) := by
    intro i h
    have hi : i < (good ++ [lastp]).length := by
      simp
      omega
    have hs := hserver i hi
    rw [hgetg i h hi] at hs
    simpa using hs
  have hs_last : server (0 + good.length) = TransportResult.resp 200 lastp := by
    have hi : good.length < (good ++ [lastp]).length := by simp
    have hs := hserver good.length hi
    rw [hgetlast hi] at hs
    simpa using hs
  obtain ⟨m, hm⟩ : ∃ m, 1000 - good.length = m + 1 :=
    ⟨999 - good.length, by simp at hcap; omega⟩
  have key : net.get_table_rows server code tbl scope json index_position
      key_type encode_type lower_bound upper_bound limit reverse show_payer
      true
      = (TableRowsOutcome.rows (((good ++ [lastp]).map pageRows).flatten),
         (chainPayloads (tableRowsPayload code tbl scope json index_position
             key_type encode_type lower_bound upper_bound limit reverse
             show_payer) (good ++ [lastp])).map
           (net.composePost tableEndpoint)) := by
    rw [Net.get_table_rows]
    rw [tableLoop_unroll net server hready good
      (tableRowsPayload code tbl scope json index_position key_type
        encode_type lower_bound upper_bound limit reverse show_payer)
      [] 0 1000 hmidg hserverg (by simp at hcap; omega)]
    rw [hm]
    rw [tableLoop_step_last net server _ _ (0 + good.length) m lastp xs hready
      hs_last hrows hmore]
    rw [chainPayloads_append]
    have hpr : pageRows lastp = xs := by simp [pageRows, hrows]
    simp [List.map_append, List.flatten_append, hpr]
  refine ⟨?_, ?_, ?_⟩
  · rw [key]
  · rw [key]
    simp [chainPayloads_length]
  · intro i h2
    rw [key]
    have hlen2 : i + 1 < (chainPayloads (tableRowsPayload code tbl scope json
        index_position key_type encode_type lower_bound upper_bound limit
        reverse show_payer) (good ++ [lastp])).length := by
      rw [chainPayloads_length]
      simpa using h2
    have hcg := chainPayloads_get (good ++ [lastp])
      (tableRowsPayload code tbl scope json index_position key_type
        encode_type lower_bound upper_bound limit reverse show_payer)
      i hlen2 h2
    rw [List.getElem?_map, List.getElem?_eq_getElem hlen2]
    simpa [List.get_eq_getElem, Net.composePost] using hcg

/-- Witness for C2: the two-page scenario — page one rows [1, 2] with token
x, page two rows [3], no more — yields rows [1, 2, 3] after exactly two
requests, the second posted with `lower_bound` x. -/
theorem C2_witness :
    (netNoClient.get_table_rows twoPageServer ("user2") ("messages")
        ("user2") true JsonVal.null JsonVal.null JsonVal.null JsonVal.null
        JsonVal.null 1000 JsonVal.null JsonVal.null true).1
      = TableRowsOutcome.rows [JsonVal.num 1, JsonVal.num 2, JsonVal.num 3] ∧
    (netNoClient.get_table_rows twoPageServer ("user2") ("messages")
        ("user2") true JsonVal.null JsonVal.null JsonVal.null JsonVal.null
        JsonVal.null 1000 JsonVal.null JsonVal.null true).2.length = 2 ∧
    ((netNoClient.get_table_rows twoPageServer ("user2") ("messages")
        ("user2") true JsonVal.null JsonVal.null JsonVal.null JsonVal.null
        JsonVal.null 1000 JsonVal.null JsonVal.null true).2[1]?).map
        (fun q => alookup q.payload ("lower_bound"))
      = some (some (JsonVal.str ("x"))) := by
  have hne : twoPages ≠ [] := by simp [twoPages]
  have hcap : twoPages.length ≤ 1000 := by decide
  have hmid : ∀ i (h : i + 1 < twoPages.length),
      isMidPage (twoPages.get ⟨i, Nat.lt_of_succ_lt h⟩) = true := by
    intro i h
    have h' := h
    simp only [twoPages, List.length_cons, List.length_nil] at h'
    have h1 : i = 0 := by omega
    subst h1
    rfl
  have hlast : isLastPage (twoPages.getLast hne) = true := rfl
  have hserver : ∀ i (h : i < twoPages.length),
      twoPageServer i = TransportResult.resp 200 (twoPages.get ⟨i, h⟩) := by
    intro i h
    have h' := h
    simp only [twoPages, List.length_cons, List.length_nil] at h'
    have h1 : i = 0 ∨ i = 1 := by omega
    rcases h1 with h1 | h1 <;> subst h1 <;> rfl
  have h := C2_full_pagination netNoClient twoPageServer twoPages ("user2")
    ("messages") ("user2") true JsonVal.null JsonVal.null JsonVal.null
    JsonVal.null JsonVal.null 1000 JsonVal.null JsonVal.null rfl hne hcap
    hmid hlast hserver
  refine ⟨h.1.trans (by rfl), ?_, ?_⟩
  · rw [h.2.1]
    rfl
  · have h3 := h.2.2 0 (by decide)
    exact h3.trans (by rfl)
